import Mathlib

/-!
# wasm-utils/utils.js

A verification development for the two asynchronous loaders of
`wasm-utils/utils.js`:

```
export async function read_json(path) {
    return (await fetch(path)).json();
}

export async function read_image(path) {
    return await (await fetch(path)).blob();
}
```

The loaders are translated as state-passing computations over a host
(the JavaScript environment: `fetch`, `Response.json`, `Response.blob`),
which is a parameter of every definition.
-/

namespace WasmUtils

/-! ## Promises and asynchronous computations -/

/-- The settled state of a promise: fulfilled with a value, or rejected
with a reason. -/
inductive Settled (ε α : Type) where
  | resolved (value : α) : Settled ε α
  | rejected (reason : ε) : Settled ε α
  deriving DecidableEq, Repr

/-- An asynchronous computation, run to settlement against a host whose
state has type `σ`: it returns how its promise settles and the host state
it leaves behind. -/
abbrev Async (σ ε α : Type) : Type := σ → Settled ε α × σ

/-- The statement `return a` of an `async function`: the promise of the
function is fulfilled with `a`; the host is untouched. -/
def Async.ret {σ ε α : Type} (a : α) : Async σ ε α :=
  fun s => (Settled.resolved a, s)

/-- The expression `await m` followed by the rest `k` of the function body.
When `m` is fulfilled the body goes on with the value; when `m` is rejected
the reason is thrown, and since the loaders contain no `try`, the promise of
the whole function is rejected with that same reason. -/
def Async.await {σ ε α β : Type} (m : Async σ ε α) (k : α → Async σ ε β) :
    Async σ ε β :=
  fun s =>
    match m s with
    | (Settled.resolved a, s1) => k a s1
    | (Settled.rejected e, s1) => (Settled.rejected e, s1)

/-! ## The host interface -/

/-- What the loaders can observe of a `Response`: its status code, its
content type and the bytes of its body. -/
structure Response where
  status : Nat
  contentType : String
  body : List Nat
  deriving DecidableEq, Repr

/-- A `Blob`: bytes with a type. -/
structure Blob where
  bytes : List Nat
  type : String
  deriving DecidableEq, Repr

/-- The environment of the loaders. `fetch input init` is the global
`fetch` (its second argument is optional in JavaScript, hence `Option`),
`json r` is the method call `r.json()` and `blob r` is `r.blob()`. Each of
them returns a promise, so each may be rejected, and each may read and change
the host state. `ι` is the type of request options, `J` the type of decoded
structured values. -/
structure Host (σ ε ι J : Type) where
  fetch : String → Option ι → Async σ ε Response
  json : Response → Async σ ε J
  blob : Response → Async σ ε Blob

/-! ## The loaders -/

/-- The function `read_json` of `utils.js`:
`return (await fetch(path)).json();`.
The function awaits `fetch(path)` and returns the promise of `json()`; an
`async function` that returns a promise settles as that promise does. -/
def read_json {σ ε ι J : Type} (h : Host σ ε ι J) (path : String) : Async σ ε J :=
  Async.await (h.fetch path none) fun response =>
    h.json response

/-- The function `read_image` of `utils.js`:
`return await (await fetch(path)).blob();`. -/
def read_image {σ ε ι J : Type} (h : Host σ ε ι J) (path : String) : Async σ ε Blob :=
  Async.await (h.fetch path none) fun response =>
    Async.await (h.blob response) fun blob =>
      Async.ret blob

/-! ## A host that records its `fetch` invocations -/

/-- One invocation of `fetch`: the arguments it was called with. -/
structure FetchCall (ι : Type) where
  input : String
  init : Option ι
  deriving DecidableEq, Repr

/-- The host `h`, instrumented: every invocation of `fetch` is appended to a
record kept next to the state of `h`; nothing else is changed. -/
def Host.recording {σ ε ι J : Type} (h : Host σ ε ι J) :
    Host (σ × List (FetchCall ι)) ε ι J where
  fetch input init := fun s =>
    ((h.fetch input init s.1).1, ((h.fetch input init s.1).2, s.2 ++ [⟨input, init⟩]))
  json r := fun s => ((h.json r s.1).1, ((h.json r s.1).2, s.2))
  blob r := fun s => ((h.blob r s.1).1, ((h.blob r s.1).2, s.2))

/-- The host `h` with a `fetch` that is fulfilled with the response `r`,
whatever it is asked for; the body methods are those of `h`. -/
def Host.serving {σ ε ι J : Type} (h : Host σ ε ι J) (r : Response) : Host σ ε ι J :=
  { h with fetch := fun _ _ s => (Settled.resolved r, s) }

/-! ## A concrete host: a table of served resources -/

/-- The reasons for rejection of the table host. -/
inductive TableError where
  | network : TableError
  | parse : TableError
  | aborted : TableError
  deriving DecidableEq, Repr

/-- The state of the table host: the resources currently served, by path,
and whether body transfers currently run to completion. -/
structure Table where
  served : List (String × Response)
  online : Bool
  deriving DecidableEq, Repr

/-- Look a path up among the served resources. -/
def lookup : List (String × Response) → String → Option Response
  | [], _ => none
  | (q, r) :: rest, p => if q = p then some r else lookup rest p

/-- Serve `r` at `p` from now on. -/
def Table.serve (t : Table) (p : String) (r : Response) : Table :=
  { t with served := (p, r) :: t.served }

/-- A decoder of the table host for bodies that are a single decimal digit
(bytes 48 to 57); every other body is a parse error. -/
def digitJson (r : Response) : Settled TableError Nat :=
  match r.body with
  | [b] => if 48 ≤ b ∧ b ≤ 57 then Settled.resolved (b - 48) else Settled.rejected TableError.parse
  | _ => Settled.rejected TableError.parse

/-- The one-byte text of a digit, which `digitJson` decodes. -/
def digitText (n : Nat) : List Nat := [48 + n]

/-- The table host: `fetch` answers from the table and is rejected for a
path that is not served; `json` decodes a digit; `blob` hands over the body
and the content type. While the table is not online, the transfer of a body
is aborted after the response head has arrived: `fetch` is fulfilled and the
body methods are rejected. -/
def tableHost : Host Table TableError Unit Nat where
  fetch input _ := fun t =>
    match lookup t.served input with
    | some r => (Settled.resolved r, t)
    | none => (Settled.rejected TableError.network, t)
  json r := fun t =>
    if t.online then (digitJson r, t) else (Settled.rejected TableError.aborted, t)
  blob r := fun t =>
    if t.online then (Settled.resolved ⟨r.body, r.contentType⟩, t)
    else (Settled.rejected TableError.aborted, t)

/-- The content type as a browser reports it on a blob: the letters of the
type in lower case. -/
def lowerType (t : String) : String :=
  String.mk (t.data.map Char.toLower)

/-- The table host with a `blob()` that reports the content type in lower
case and hands over the body unchanged. -/
def lowerHost : Host Table TableError Unit Nat :=
  { tableHost with
    blob := fun r t => (Settled.resolved ⟨r.body, lowerType r.contentType⟩, t) }

/-- A response of the table host: the digit 7 as structured text. -/
def sevenResponse : Response := ⟨200, "application/json", digitText 7⟩

/-- A response of the table host: the first four bytes of a PNG file. -/
def pngResponse : Response := ⟨200, "image/png", [137, 80, 78, 71]⟩

/-- A response of the table host: the text `not json`. -/
def notJsonResponse : Response := ⟨200, "text/plain", [110, 111, 116, 32, 106, 115, 111, 110]⟩

/-- A table that serves the three responses above. -/
def demoTable : Table :=
  ⟨[("/seven.json", sevenResponse), ("/a.png", pngResponse), ("/bad.json", notJsonResponse)], true⟩

/-! ## Two calls in flight

An `async function` runs until its first `await` when it is called, is
suspended there until the awaited promise settles, and so on. A call of a
loader is a small state machine; two calls in flight are two such machines
over one host, and a schedule says which of the two moves next. -/

/-- The two loaders. -/
inductive Loader where
  | json : Loader
  | image : Loader
  deriving DecidableEq, Repr

/-- What a call of a loader is fulfilled with: the decoded value of
`read_json`, or the blob of `read_image`. -/
inductive Decoded (J : Type) where
  | value (v : J) : Decoded J
  | blob (b : Blob) : Decoded J
  deriving DecidableEq, Repr

/-- The body method a loader invokes on the response: `json()` in
`read_json`, `blob()` in `read_image`. -/
def Loader.body {σ ε ι J : Type} (h : Host σ ε ι J) :
    Loader → Response → Async σ ε (Decoded J)
  | Loader.json, r => Async.await (h.json r) fun v => Async.ret (Decoded.value v)
  | Loader.image, r => Async.await (h.blob r) fun b => Async.ret (Decoded.blob b)

/-- A call of a loader, run alone from start to settlement. -/
def Loader.run {σ ε ι J : Type} (h : Host σ ε ι J) :
    Loader → String → Async σ ε (Decoded J)
  | Loader.json, p => Async.await (read_json h p) fun v => Async.ret (Decoded.value v)
  | Loader.image, p => Async.await (read_image h p) fun b => Async.ret (Decoded.blob b)

/-- The state of one call. `notStarted`: the caller has not made the call
yet. `awaitingFetch`: the call has invoked `fetch(path)` and is suspended at
the inner `await`; the promise of `fetch` is pending and will settle as `o`.
`awaitingBody`: the call has invoked the body method and is suspended on its
promise, which will settle as `o`. `settled`: the promise of the call has
settled. -/
inductive Call (ε J : Type) where
  | notStarted (k : Loader) (path : String) : Call ε J
  | awaitingFetch (k : Loader) (o : Settled ε Response) : Call ε J
  | awaitingBody (k : Loader) (o : Settled ε (Decoded J)) : Call ε J
  | settled (o : Settled ε (Decoded J)) : Call ε J
  deriving DecidableEq, Repr

/-- One move of a call. A call that is not started is made: it invokes
`fetch(path)` and is suspended. A call suspended on `fetch` is resumed when
that promise settles: with a response it invokes the body method and is
suspended again, with a rejection it is rejected. A call suspended on the body
method settles as that promise settles. A settled call stays as it is. -/
def Call.step {σ ε ι J : Type} (h : Host σ ε ι J) : Call ε J → σ → Call ε J × σ
  | Call.notStarted k p, s => (Call.awaitingFetch k (h.fetch p none s).1, (h.fetch p none s).2)
  | Call.awaitingFetch k (Settled.resolved r), s =>
      (Call.awaitingBody k (k.body h r s).1, (k.body h r s).2)
  | Call.awaitingFetch _ (Settled.rejected e), s => (Call.settled (Settled.rejected e), s)
  | Call.awaitingBody _ o, s => (Call.settled o, s)
  | Call.settled o, s => (Call.settled o, s)

/-- The number of moves a call is away from being settled, at most. -/
def Call.rank {ε J : Type} : Call ε J → Nat
  | Call.notStarted _ _ => 3
  | Call.awaitingFetch _ _ => 2
  | Call.awaitingBody _ _ => 1
  | Call.settled _ => 0

/-- Two calls in flight over one host. -/
structure Flight (σ ε J : Type) where
  first : Call ε J
  second : Call ε J
  host : σ

/-- One move of the flight: of the second call when `which` is `true`, of
the first when it is `false`. -/
def Flight.step {σ ε ι J : Type} (h : Host σ ε ι J) (f : Flight σ ε J) (which : Bool) :
    Flight σ ε J :=
  if which then
    { f with second := (f.second.step h f.host).1, host := (f.second.step h f.host).2 }
  else
    { f with first := (f.first.step h f.host).1, host := (f.first.step h f.host).2 }

/-- The flight after the moves of a schedule, in order. -/
def Flight.run {σ ε ι J : Type} (h : Host σ ε ι J) (f : Flight σ ε J) :
    List Bool → Flight σ ε J
  | [] => f
  | which :: rest => Flight.run h (Flight.step h f which) rest

/-- The answers of the host `h` are fixed on the set `inv` of host states: no
operation of the host leads out of the set, and inside the set the outcome of
an operation does not depend on the state. -/
structure Host.SteadyOn {σ ε ι J : Type} (h : Host σ ε ι J) (inv : σ → Prop) : Prop where
  fetch_stays : ∀ (p : String) (i : Option ι) (s : σ), inv s → inv (h.fetch p i s).2
  json_stays : ∀ (r : Response) (s : σ), inv s → inv (h.json r s).2
  blob_stays : ∀ (r : Response) (s : σ), inv s → inv (h.blob r s).2
  fetch_fixed : ∀ (p : String) (i : Option ι) (s s' : σ), inv s → inv s' →
    (h.fetch p i s).1 = (h.fetch p i s').1
  json_fixed : ∀ (r : Response) (s s' : σ), inv s → inv s' → (h.json r s).1 = (h.json r s').1
  blob_fixed : ∀ (r : Response) (s s' : σ), inv s → inv s' → (h.blob r s).1 = (h.blob r s').1

/-- The states of a call of loader `k` on path `p` that agree with the call
run alone from the host state `s0`. -/
def Call.Agrees {σ ε ι J : Type} (h : Host σ ε ι J) (k : Loader) (p : String) (s0 : σ) :
    Call ε J → Prop
  | Call.notStarted k' p' => k' = k ∧ p' = p
  | Call.awaitingFetch k' o => k' = k ∧ o = (h.fetch p none s0).1
  | Call.awaitingBody k' o => k' = k ∧
      ∃ r : Response, (h.fetch p none s0).1 = Settled.resolved r ∧ o = (k.body h r s0).1
  | Call.settled o => o = (k.run h p s0).1

/-! ## Basic facts -/

theorem await_resolved {σ ε α β : Type} (m : Async σ ε α) (k : α → Async σ ε β)
    (s s1 : σ) (a : α) (hm : m s = (Settled.resolved a, s1)) :
    Async.await m k s = k a s1 := by
  simp [Async.await, hm]

theorem await_rejected {σ ε α β : Type} (m : Async σ ε α) (k : α → Async σ ε β)
    (s s1 : σ) (e : ε) (hm : m s = (Settled.rejected e, s1)) :
    Async.await m k s = (Settled.rejected e, s1) := by
  simp [Async.await, hm]

theorem await_ret {σ ε α : Type} (m : Async σ ε α) (s : σ) :
    Async.await m Async.ret s = m s := by
  unfold Async.await Async.ret
  rcases hm : m s with ⟨o, s1⟩
  cases o <;> rfl

theorem read_json_of_fetch_resolved {σ ε ι J : Type} (h : Host σ ε ι J) (p : String)
    (s s1 : σ) (r : Response) (hfetch : h.fetch p none s = (Settled.resolved r, s1)) :
    read_json h p s = h.json r s1 := by
  unfold read_json
  exact await_resolved _ _ s s1 r hfetch

theorem read_image_of_fetch_resolved {σ ε ι J : Type} (h : Host σ ε ι J) (p : String)
    (s s1 : σ) (r : Response) (hfetch : h.fetch p none s = (Settled.resolved r, s1)) :
    read_image h p s = h.blob r s1 := by
  unfold read_image
  rw [await_resolved _ _ s s1 r hfetch]
  exact await_ret _ s1

theorem read_json_of_fetch_rejected {σ ε ι J : Type} (h : Host σ ε ι J) (p : String)
    (s s1 : σ) (e : ε) (hfetch : h.fetch p none s = (Settled.rejected e, s1)) :
    read_json h p s = (Settled.rejected e, s1) := by
  unfold read_json
  exact await_rejected _ _ s s1 e hfetch

theorem read_image_of_fetch_rejected {σ ε ι J : Type} (h : Host σ ε ι J) (p : String)
    (s s1 : σ) (e : ε) (hfetch : h.fetch p none s = (Settled.rejected e, s1)) :
    read_image h p s = (Settled.rejected e, s1) := by
  unfold read_image
  exact await_rejected _ _ s s1 e hfetch

/-- The instrumented host answers as the host it wraps. -/
theorem read_json_recording_outcome {σ ε ι J : Type} (h : Host σ ε ι J) (p : String)
    (s : σ) (log : List (FetchCall ι)) :
    (read_json h.recording p (s, log)).1 = (read_json h p s).1 := by
  rcases hf : h.fetch p none s with ⟨o, s1⟩
  cases o with
  | resolved r =>
    rw [read_json_of_fetch_resolved h p s s1 r hf,
      read_json_of_fetch_resolved h.recording p (s, log) (s1, log ++ [⟨p, none⟩]) r
        (by simp [Host.recording, hf])]
    simp [Host.recording]
  | rejected e =>
    rw [read_json_of_fetch_rejected h p s s1 e hf,
      read_json_of_fetch_rejected h.recording p (s, log) (s1, log ++ [⟨p, none⟩]) e
        (by simp [Host.recording, hf])]

/-- The record kept by the instrumented host after one call of `read_json`. -/
theorem read_json_recording_log {σ ε ι J : Type} (h : Host σ ε ι J) (p : String)
    (s : σ) (log : List (FetchCall ι)) :
    (read_json h.recording p (s, log)).2.2 = log ++ [⟨p, none⟩] := by
  rcases hf : h.fetch p none s with ⟨o, s1⟩
  cases o with
  | resolved r =>
    rw [read_json_of_fetch_resolved h.recording p (s, log) (s1, log ++ [⟨p, none⟩]) r
        (by simp [Host.recording, hf])]
    simp [Host.recording]
  | rejected e =>
    rw [read_json_of_fetch_rejected h.recording p (s, log) (s1, log ++ [⟨p, none⟩]) e
        (by simp [Host.recording, hf])]

/-- The record kept by the instrumented host after one call of `read_image`. -/
theorem read_image_recording_log {σ ε ι J : Type} (h : Host σ ε ι J) (p : String)
    (s : σ) (log : List (FetchCall ι)) :
    (read_image h.recording p (s, log)).2.2 = log ++ [⟨p, none⟩] := by
  rcases hf : h.fetch p none s with ⟨o, s1⟩
  cases o with
  | resolved r =>
    rw [read_image_of_fetch_resolved h.recording p (s, log) (s1, log ++ [⟨p, none⟩]) r
        (by simp [Host.recording, hf])]
    simp [Host.recording]
  | rejected e =>
    rw [read_image_of_fetch_rejected h.recording p (s, log) (s1, log ++ [⟨p, none⟩]) e
        (by simp [Host.recording, hf])]

/-! ## Facts about calls in flight -/

theorem await_ret_state {σ ε α β : Type} (m : Async σ ε α) (f : α → β) (s : σ) :
    (Async.await m (fun a => Async.ret (f a)) s).2 = (m s).2 := by
  unfold Async.await Async.ret
  rcases m s with ⟨o, s1⟩
  cases o <;> rfl

theorem await_ret_outcome {σ ε α β : Type} (m m' : Async σ ε α) (f : α → β) (s s' : σ)
    (hm : (m s).1 = (m' s').1) :
    (Async.await m (fun a => Async.ret (f a)) s).1 =
      (Async.await m' (fun a => Async.ret (f a)) s').1 := by
  unfold Async.await Async.ret
  rcases hs : m s with ⟨o, s1⟩
  rcases hs' : m' s' with ⟨o', s1'⟩
  rw [hs, hs'] at hm
  simp only at hm
  subst hm
  cases o <;> rfl

theorem body_stays {σ ε ι J : Type} (h : Host σ ε ι J) (inv : σ → Prop)
    (hsteady : h.SteadyOn inv) (k : Loader) (r : Response) (s : σ) (hs : inv s) :
    inv (k.body h r s).2 := by
  cases k with
  | json =>
    show inv (Async.await (h.json r) (fun v => Async.ret (Decoded.value v)) s).2
    rw [await_ret_state]
    exact hsteady.json_stays r s hs
  | image =>
    show inv (Async.await (h.blob r) (fun b => Async.ret (Decoded.blob b)) s).2
    rw [await_ret_state]
    exact hsteady.blob_stays r s hs

theorem body_fixed {σ ε ι J : Type} (h : Host σ ε ι J) (inv : σ → Prop)
    (hsteady : h.SteadyOn inv) (k : Loader) (r : Response) (s s' : σ)
    (hs : inv s) (hs' : inv s') :
    (k.body h r s).1 = (k.body h r s').1 := by
  cases k with
  | json => exact await_ret_outcome _ _ _ s s' (hsteady.json_fixed r s s' hs hs')
  | image => exact await_ret_outcome _ _ _ s s' (hsteady.blob_fixed r s s' hs hs')

theorem run_of_fetch_resolved {σ ε ι J : Type} (h : Host σ ε ι J) (k : Loader)
    (p : String) (s s1 : σ) (r : Response)
    (hfetch : h.fetch p none s = (Settled.resolved r, s1)) :
    k.run h p s = k.body h r s1 := by
  cases k with
  | json =>
    show Async.await (read_json h p) _ s = Async.await (h.json r) _ s1
    unfold Async.await
    rw [read_json_of_fetch_resolved h p s s1 r hfetch]
  | image =>
    show Async.await (read_image h p) _ s = Async.await (h.blob r) _ s1
    unfold Async.await
    rw [read_image_of_fetch_resolved h p s s1 r hfetch]

theorem run_of_fetch_rejected {σ ε ι J : Type} (h : Host σ ε ι J) (k : Loader)
    (p : String) (s s1 : σ) (e : ε)
    (hfetch : h.fetch p none s = (Settled.rejected e, s1)) :
    k.run h p s = (Settled.rejected e, s1) := by
  cases k with
  | json =>
    show Async.await (read_json h p) _ s = _
    unfold Async.await
    rw [read_json_of_fetch_rejected h p s s1 e hfetch]
  | image =>
    show Async.await (read_image h p) _ s = _
    unfold Async.await
    rw [read_image_of_fetch_rejected h p s s1 e hfetch]

/-- A move keeps a call in agreement with the call run alone, and keeps the
host inside the set on which its answers are fixed. -/
theorem step_agrees {σ ε ι J : Type} (h : Host σ ε ι J) (inv : σ → Prop)
    (hsteady : h.SteadyOn inv) (k : Loader) (p : String) (s0 s : σ)
    (hs0 : inv s0) (hs : inv s) (c : Call ε J) (hc : Call.Agrees h k p s0 c) :
    Call.Agrees h k p s0 (c.step h s).1 ∧ inv (c.step h s).2 := by
  cases c with
  | notStarted k' p' =>
    obtain ⟨rfl, rfl⟩ := hc
    exact ⟨⟨rfl, hsteady.fetch_fixed p' none s s0 hs hs0⟩, hsteady.fetch_stays p' none s hs⟩
  | awaitingFetch k' o =>
    obtain ⟨rfl, ho⟩ := hc
    cases o with
    | resolved r =>
      exact ⟨⟨rfl, r, ho.symm, body_fixed h inv hsteady k' r s s0 hs hs0⟩,
        body_stays h inv hsteady k' r s hs⟩
    | rejected e =>
      refine ⟨?_, hs⟩
      show Settled.rejected e = (k'.run h p s0).1
      rw [run_of_fetch_rejected h k' p s0 (h.fetch p none s0).2 e (Prod.ext ho.symm rfl)]
  | awaitingBody k' o =>
    obtain ⟨rfl, r, hr, ho⟩ := hc
    refine ⟨?_, hs⟩
    show o = (k'.run h p s0).1
    rw [run_of_fetch_resolved h k' p s0 (h.fetch p none s0).2 r (Prod.ext hr rfl), ho]
    exact body_fixed h inv hsteady k' r s0 _ hs0 (hsteady.fetch_stays p none s0 hs0)
  | settled o => exact ⟨hc, hs⟩

/-- A move brings a call one step nearer to being settled. -/
theorem step_rank {σ ε ι J : Type} (h : Host σ ε ι J) (c : Call ε J) (s : σ) :
    (c.step h s).1.rank ≤ c.rank - 1 := by
  cases c with
  | notStarted k p => simp [Call.step, Call.rank]
  | awaitingFetch k o => cases o <;> simp [Call.step, Call.rank]
  | awaitingBody k o => simp [Call.step, Call.rank]
  | settled o => simp [Call.step, Call.rank]

/-- Agreement and progress along a schedule. -/
theorem run_agrees {σ ε ι J : Type} (h : Host σ ε ι J) (inv : σ → Prop)
    (hsteady : h.SteadyOn inv) (k1 k2 : Loader) (p1 p2 : String) (s0 : σ) (hs0 : inv s0)
    (schedule : List Bool) (f : Flight σ ε J)
    (hf1 : Call.Agrees h k1 p1 s0 f.first) (hf2 : Call.Agrees h k2 p2 s0 f.second)
    (hfs : inv f.host) :
    Call.Agrees h k1 p1 s0 (Flight.run h f schedule).first ∧
      Call.Agrees h k2 p2 s0 (Flight.run h f schedule).second ∧
      (Flight.run h f schedule).first.rank ≤ f.first.rank - schedule.count false ∧
      (Flight.run h f schedule).second.rank ≤ f.second.rank - schedule.count true := by
  induction schedule generalizing f with
  | nil => exact ⟨hf1, hf2, by simp [Flight.run], by simp [Flight.run]⟩
  | cons which rest ih =>
    cases which with
    | false =>
      have hstep := step_agrees h inv hsteady k1 p1 s0 f.host hs0 hfs f.first hf1
      have hrank := step_rank h f.first f.host
      obtain ⟨a1, a2, r1, r2⟩ := ih (Flight.step h f false)
        (by simpa [Flight.step] using hstep.1) (by simpa [Flight.step] using hf2)
        (by simpa [Flight.step] using hstep.2)
      refine ⟨a1, a2, ?_, ?_⟩
      · have : (Flight.step h f false).first = (f.first.step h f.host).1 := by
          simp [Flight.step]
        rw [this] at r1
        simp only [Flight.run, List.count_cons_self]
        omega
      · have : (Flight.step h f false).second = f.second := by simp [Flight.step]
        rw [this] at r2
        simpa [Flight.run] using r2
    | true =>
      have hstep := step_agrees h inv hsteady k2 p2 s0 f.host hs0 hfs f.second hf2
      have hrank := step_rank h f.second f.host
      obtain ⟨a1, a2, r1, r2⟩ := ih (Flight.step h f true)
        (by simpa [Flight.step] using hf1) (by simpa [Flight.step] using hstep.1)
        (by simpa [Flight.step] using hstep.2)
      refine ⟨a1, a2, ?_, ?_⟩
      · have : (Flight.step h f true).first = f.first := by simp [Flight.step]
        rw [this] at r1
        simpa [Flight.run] using r1
      · have : (Flight.step h f true).second = (f.second.step h f.host).1 := by
          simp [Flight.step]
        rw [this] at r2
        simp only [Flight.run, List.count_cons_self]
        omega

/-- A call of rank zero that agrees with the call run alone is settled with
the outcome of the call run alone. -/
theorem settled_of_rank_zero {σ ε ι J : Type} (h : Host σ ε ι J) (k : Loader) (p : String)
    (s0 : σ) (c : Call ε J) (hc : Call.Agrees h k p s0 c) (hr : c.rank = 0) :
    c = Call.settled (k.run h p s0).1 := by
  cases c with
  | notStarted k p => simp [Call.rank] at hr
  | awaitingFetch k o => simp [Call.rank] at hr
  | awaitingBody k o => simp [Call.rank] at hr
  | settled o =>
    have : o = (k.run h p s0).1 := hc
    rw [this]

/-! ## The claims -/

/-- C1: when `fetch(p)` is fulfilled with a response whose body is the
serialized text of `V`, and the host's `json()` decodes the serialized text of
`V` back to `V`, then `read_json(p)` is exactly the `json()` decoding of that
response and is fulfilled with `V`. -/
theorem read_json_roundtrip {σ ε ι J : Type} (h : Host σ ε ι J)
    (serialize : J → List Nat) (p : String) (V : J) (r : Response) (s s1 : σ)
    (hfetch : h.fetch p none s = (Settled.resolved r, s1))
    (hbody : r.body = serialize V)
    (hdecode : ∀ r' : Response, r'.body = serialize V →
      (h.json r' s1).1 = Settled.resolved V) :
    read_json h p s = h.json r s1 ∧ (read_json h p s).1 = Settled.resolved V := by
  have hrun := read_json_of_fetch_resolved h p s s1 r hfetch
  exact ⟨hrun, by rw [hrun]; exact hdecode r hbody⟩

/-- C2, as the claim states it, fails: the host `lowerHost` fulfils `fetch`
with a response of body `[137, 80, 78, 71]` and content type `IMAGE/PNG`, its
`blob()` reports the type as `image/png`, and `read_image` is fulfilled with
that blob, whose type is not the content type of the response. -/
theorem read_image_type_from_blob :
    lowerHost.fetch "/A.PNG" none ⟨[("/A.PNG", ⟨200, "IMAGE/PNG", [137, 80, 78, 71]⟩)], true⟩ =
        (Settled.resolved ⟨200, "IMAGE/PNG", [137, 80, 78, 71]⟩,
          ⟨[("/A.PNG", ⟨200, "IMAGE/PNG", [137, 80, 78, 71]⟩)], true⟩) ∧
      (read_image lowerHost "/A.PNG"
          ⟨[("/A.PNG", ⟨200, "IMAGE/PNG", [137, 80, 78, 71]⟩)], true⟩).1 =
        Settled.resolved ⟨[137, 80, 78, 71], "image/png"⟩ ∧
      (read_image lowerHost "/A.PNG"
          ⟨[("/A.PNG", ⟨200, "IMAGE/PNG", [137, 80, 78, 71]⟩)], true⟩).1 ≠
        Settled.resolved ⟨[137, 80, 78, 71], "IMAGE/PNG"⟩ := by
  decide

/-- C2, amended: when `fetch(p)` is fulfilled with a response whose body is
`B` and whose content type is `T`, and `blob()` of that response is fulfilled
with a blob that carries this body and this content type, then `read_image(p)`
is fulfilled with the blob of bytes `B` and type `T` and leaves the host as
`blob()` left it: `read_image` hands on what `blob()` produces and changes
neither the bytes nor the type. -/
theorem read_image_passthrough {σ ε ι J : Type} (h : Host σ ε ι J) (p : String)
    (B : List Nat) (T : String) (r : Response) (s s1 s2 : σ)
    (hfetch : h.fetch p none s = (Settled.resolved r, s1))
    (hbody : r.body = B) (htype : r.contentType = T)
    (hblob : h.blob r s1 = (Settled.resolved ⟨r.body, r.contentType⟩, s2)) :
    read_image h p s = (Settled.resolved ⟨B, T⟩, s2) := by
  rw [read_image_of_fetch_resolved h p s s1 r hfetch, hblob, hbody, htype]

/-- C3: when `fetch(p)` is rejected with `e`, both `read_json(p)` and
`read_image(p)` are rejected with exactly `e`, and the host is left as `fetch`
left it (nothing further is invoked). -/
theorem fetch_rejection_propagates {σ ε ι J : Type} (h : Host σ ε ι J) (p : String)
    (e : ε) (s s1 : σ) (hfetch : h.fetch p none s = (Settled.rejected e, s1)) :
    read_json h p s = (Settled.rejected e, s1) ∧
      read_image h p s = (Settled.rejected e, s1) :=
  ⟨read_json_of_fetch_rejected h p s s1 e hfetch,
    read_image_of_fetch_rejected h p s s1 e hfetch⟩

/-- C4: when `fetch(p)` is fulfilled with a response whose `json()` is
rejected with a parse error `e`, `read_json(p)` is rejected with exactly `e`;
it is not fulfilled with any value. -/
theorem read_json_parse_error {σ ε ι J : Type} (h : Host σ ε ι J) (p : String)
    (r : Response) (e : ε) (s s1 s2 : σ)
    (hfetch : h.fetch p none s = (Settled.resolved r, s1))
    (hjson : h.json r s1 = (Settled.rejected e, s2)) :
    read_json h p s = (Settled.rejected e, s2) ∧
      ∀ v : J, (read_json h p s).1 ≠ Settled.resolved v := by
  have hrun : read_json h p s = (Settled.rejected e, s2) := by
    rw [read_json_of_fetch_resolved h p s s1 r hfetch, hjson]
  refine ⟨hrun, fun v hv => ?_⟩
  rw [hrun] at hv
  cases hv

/-- C5: the loaders do not look at the status code. Two hosts have the
same body methods, which depend on the body and the content type of a
response only. When `fetch(p)` is fulfilled with `r1` on the one and with `r2`
on the other, and the two responses have the same body and content type,
whatever their status codes, each loader has the same outcome on both; and
whatever the status of `r1`, a loader is fulfilled with what the body method
of `r1` is fulfilled with. -/
theorem status_not_inspected {σ ε ι J : Type} (h1 h2 : Host σ ε ι J) (p : String)
    (r1 r2 : Response) (s1 s2 t : σ)
    (hfetch1 : h1.fetch p none s1 = (Settled.resolved r1, t))
    (hfetch2 : h2.fetch p none s2 = (Settled.resolved r2, t))
    (hsamejson : h2.json = h1.json) (hsameblob : h2.blob = h1.blob)
    (hbody : r1.body = r2.body) (htype : r1.contentType = r2.contentType)
    (hjson : ∀ a b : Response, a.body = b.body → a.contentType = b.contentType →
      h1.json a = h1.json b)
    (hblob : ∀ a b : Response, a.body = b.body → a.contentType = b.contentType →
      h1.blob a = h1.blob b) :
    read_json h1 p s1 = read_json h2 p s2 ∧
      read_image h1 p s1 = read_image h2 p s2 ∧
      (∀ (v : J) (u : σ), h1.json r1 t = (Settled.resolved v, u) →
        read_json h1 p s1 = (Settled.resolved v, u)) ∧
      (∀ (b : Blob) (u : σ), h1.blob r1 t = (Settled.resolved b, u) →
        read_image h1 p s1 = (Settled.resolved b, u)) := by
  have j1 : read_json h1 p s1 = h1.json r1 t :=
    read_json_of_fetch_resolved h1 p s1 t r1 hfetch1
  have j2 : read_json h2 p s2 = h2.json r2 t :=
    read_json_of_fetch_resolved h2 p s2 t r2 hfetch2
  have i1 : read_image h1 p s1 = h1.blob r1 t :=
    read_image_of_fetch_resolved h1 p s1 t r1 hfetch1
  have i2 : read_image h2 p s2 = h2.blob r2 t :=
    read_image_of_fetch_resolved h2 p s2 t r2 hfetch2
  refine ⟨?_, ?_, ?_, ?_⟩
  · rw [j1, j2, hsamejson, hjson r1 r2 hbody htype]
  · rw [i1, i2, hsameblob, hblob r1 r2 hbody htype]
  · intro v u hv
    rw [j1, hv]
  · intro b u hb
    rw [i1, hb]

/-- C6: over a host that records the invocations of `fetch`, one call of
`read_json` and one call of `read_image` each make the record longer by
exactly one entry, whatever the outcome of the call. -/
theorem one_request_per_call {σ ε ι J : Type} (h : Host σ ε ι J) (p : String)
    (s : σ) (log : List (FetchCall ι)) :
    (read_json h.recording p (s, log)).2.2.length = log.length + 1 ∧
      (read_image h.recording p (s, log)).2.2.length = log.length + 1 := by
  rw [read_json_recording_log, read_image_recording_log]
  simp

/-- C7: for every string `p`, a call of `read_json(p)` or of `read_image(p)`
invokes `fetch` with `p` itself and with no second argument, and a call is
rejected only with a reason that `fetch` or the body method was rejected
with. -/
theorem path_passed_unmodified {σ ε ι J : Type} (h : Host σ ε ι J) (p : String)
    (s : σ) (log : List (FetchCall ι)) :
    (read_json h.recording p (s, log)).2.2 = log ++ [⟨p, none⟩] ∧
      (read_image h.recording p (s, log)).2.2 = log ++ [⟨p, none⟩] ∧
      (∀ e : ε, (read_json h p s).1 = Settled.rejected e →
        (h.fetch p none s).1 = Settled.rejected e ∨
          ∃ r : Response, (h.fetch p none s).1 = Settled.resolved r ∧
            (h.json r (h.fetch p none s).2).1 = Settled.rejected e) ∧
      (∀ e : ε, (read_image h p s).1 = Settled.rejected e →
        (h.fetch p none s).1 = Settled.rejected e ∨
          ∃ r : Response, (h.fetch p none s).1 = Settled.resolved r ∧
            (h.blob r (h.fetch p none s).2).1 = Settled.rejected e) := by
  refine ⟨read_json_recording_log h p s log, read_image_recording_log h p s log, ?_, ?_⟩
  · intro e he
    rcases hf : h.fetch p none s with ⟨o, s1⟩
    cases o with
    | resolved r =>
      rw [read_json_of_fetch_resolved h p s s1 r hf] at he
      exact Or.inr ⟨r, rfl, he⟩
    | rejected e' =>
      rw [read_json_of_fetch_rejected h p s s1 e' hf] at he
      cases he
      exact Or.inl rfl
  · intro e he
    rcases hf : h.fetch p none s with ⟨o, s1⟩
    cases o with
    | resolved r =>
      rw [read_image_of_fetch_resolved h p s s1 r hf] at he
      exact Or.inr ⟨r, rfl, he⟩
    | rejected e' =>
      rw [read_image_of_fetch_rejected h p s s1 e' hf] at he
      cases he
      exact Or.inl rfl

/-- C8: a loader is called, the environment changes in any way, and the same
loader is called again on the same path. When `fetch` is then fulfilled with
a response, the second call settles as the body method settles on that
response: nothing of the first call is kept. -/
theorem no_caching {σ ε ι J : Type} (h : Host σ ε ι J) (p : String) (s : σ)
    (change : σ → σ) (rj ri : Response) (sj si : σ)
    (hj : h.fetch p none (change (read_json h p s).2) = (Settled.resolved rj, sj))
    (hi : h.fetch p none (change (read_image h p s).2) = (Settled.resolved ri, si)) :
    read_json h p (change (read_json h p s).2) = h.json rj sj ∧
      read_image h p (change (read_image h p s).2) = h.blob ri si :=
  ⟨read_json_of_fetch_resolved h p _ sj rj hj, read_image_of_fetch_resolved h p _ si ri hi⟩

/-- C9, as the claim states it, fails: the table host, while its body
transfers are aborted, fulfils `fetch` with a response and rejects `blob()`,
and `read_image` is rejected. -/
theorem read_image_rejects_after_fetch_resolved :
    tableHost.fetch "/a.png" none ⟨[("/a.png", ⟨200, "image/png", [137, 80, 78, 71]⟩)], false⟩ =
        (Settled.resolved ⟨200, "image/png", [137, 80, 78, 71]⟩,
          ⟨[("/a.png", ⟨200, "image/png", [137, 80, 78, 71]⟩)], false⟩) ∧
      (read_image tableHost "/a.png"
          ⟨[("/a.png", ⟨200, "image/png", [137, 80, 78, 71]⟩)], false⟩).1 =
        Settled.rejected TableError.aborted := by
  decide

/-- C9, amended: when `fetch(p)` is fulfilled with a response, `read_image(p)`
settles exactly as `blob()` of that response settles, fulfilled with its blob
or rejected with its reason; and `read_image` does not depend on the `json()`
method of the host, so no parse failure can reach it. -/
theorem read_image_settles_as_blob {σ ε ι J : Type} (h : Host σ ε ι J) (p : String)
    (r : Response) (s s1 : σ)
    (hfetch : h.fetch p none s = (Settled.resolved r, s1)) :
    read_image h p s = h.blob r s1 ∧
      ∀ decode : Response → Async σ ε J,
        read_image { h with json := decode } p s = read_image h p s :=
  ⟨read_image_of_fetch_resolved h p s s1 r hfetch, fun _ => rfl⟩

/-- C10: two calls, each of either loader, are in flight over a host whose
answers are fixed while they are. Whatever the order in which the calls are
made and in which their requests and body promises settle, once each call has
had its three moves it is settled with the outcome the same call has when it
is run alone: the decoding of the response of its own path. -/
theorem concurrent_calls_independent {σ ε ι J : Type} (h : Host σ ε ι J)
    (inv : σ → Prop) (k1 k2 : Loader) (p1 p2 : String) (s : σ) (schedule : List Bool)
    (hsteady : h.SteadyOn inv) (hs : inv s)
    (hfirst : 3 ≤ schedule.count false) (hsecond : 3 ≤ schedule.count true) :
    (Flight.run h ⟨Call.notStarted k1 p1, Call.notStarted k2 p2, s⟩ schedule).first =
        Call.settled (k1.run h p1 s).1 ∧
      (Flight.run h ⟨Call.notStarted k1 p1, Call.notStarted k2 p2, s⟩ schedule).second =
        Call.settled (k2.run h p2 s).1 := by
  obtain ⟨a1, a2, r1, r2⟩ := run_agrees h inv hsteady k1 k2 p1 p2 s hs schedule
    ⟨Call.notStarted k1 p1, Call.notStarted k2 p2, s⟩ ⟨rfl, rfl⟩ ⟨rfl, rfl⟩ hs
  have b1 : (Flight.run h ⟨Call.notStarted k1 p1, Call.notStarted k2 p2, s⟩ schedule).first.rank ≤
      3 - schedule.count false := r1
  have b2 : (Flight.run h ⟨Call.notStarted k1 p1, Call.notStarted k2 p2, s⟩ schedule).second.rank ≤
      3 - schedule.count true := r2
  exact ⟨settled_of_rank_zero h k1 p1 s _ a1 (by omega),
    settled_of_rank_zero h k2 p2 s _ a2 (by omega)⟩

/-! ## The claims at concrete inputs -/

theorem tableHost_fetch_state (p : String) (i : Option Unit) (t : Table) :
    (tableHost.fetch p i t).2 = t := by
  show (match lookup t.served p with
    | some r => (Settled.resolved r, t)
    | none => (Settled.rejected TableError.network, t)).2 = t
  cases lookup t.served p <;> rfl

theorem tableHost_json_state (r : Response) (t : Table) : (tableHost.json r t).2 = t := by
  show (if t.online then (digitJson r, t) else (Settled.rejected TableError.aborted, t)).2 = t
  cases t.online <;> rfl

theorem tableHost_blob_state (r : Response) (t : Table) : (tableHost.blob r t).2 = t := by
  show (if t.online then (Settled.resolved (⟨r.body, r.contentType⟩ : Blob), t)
    else (Settled.rejected TableError.aborted, t)).2 = t
  cases t.online <;> rfl

/-- The answers of the table host are fixed as long as the table is. -/
theorem tableHost_steady (t0 : Table) : tableHost.SteadyOn (fun t => t = t0) where
  fetch_stays p i s hs := by rw [tableHost_fetch_state]; exact hs
  json_stays r s hs := by rw [tableHost_json_state]; exact hs
  blob_stays r s hs := by rw [tableHost_blob_state]; exact hs
  fetch_fixed p i s s' hs hs' := by rw [hs, hs']
  json_fixed r s s' hs hs' := by rw [hs, hs']
  blob_fixed r s s' hs hs' := by rw [hs, hs']

theorem read_json_roundtrip_witness :
    read_json tableHost "/seven.json" demoTable = tableHost.json sevenResponse demoTable ∧
      (read_json tableHost "/seven.json" demoTable).1 = Settled.resolved 7 :=
  read_json_roundtrip tableHost digitText "/seven.json" 7 sevenResponse demoTable demoTable
    (by decide) (by decide)
    (fun r' hb => by
      show (if demoTable.online then (digitJson r', demoTable)
        else (Settled.rejected TableError.aborted, demoTable)).1 = Settled.resolved 7
      simp [demoTable, digitJson, hb, digitText])

theorem read_image_passthrough_witness :
    read_image tableHost "/a.png" demoTable =
      (Settled.resolved ⟨[137, 80, 78, 71], "image/png"⟩, demoTable) :=
  read_image_passthrough tableHost "/a.png" [137, 80, 78, 71] "image/png" pngResponse
    demoTable demoTable demoTable (by decide) (by decide) (by decide) (by decide)

theorem fetch_rejection_propagates_witness :
    tableHost.fetch "/missing" none demoTable = (Settled.rejected TableError.network, demoTable) ∧
      read_json tableHost "/missing" demoTable =
        (Settled.rejected TableError.network, demoTable) ∧
      read_image tableHost "/missing" demoTable =
        (Settled.rejected TableError.network, demoTable) :=
  ⟨by decide,
    fetch_rejection_propagates tableHost "/missing" TableError.network demoTable demoTable
      (by decide)⟩

theorem read_json_parse_error_witness :
    tableHost.json notJsonResponse demoTable = (Settled.rejected TableError.parse, demoTable) ∧
      read_json tableHost "/bad.json" demoTable =
        (Settled.rejected TableError.parse, demoTable) ∧
      ∀ v : Nat, (read_json tableHost "/bad.json" demoTable).1 ≠ Settled.resolved v :=
  ⟨by decide,
    read_json_parse_error tableHost "/bad.json" notJsonResponse TableError.parse
      demoTable demoTable demoTable (by decide) (by decide)⟩

theorem status_not_inspected_witness :
    (read_json (tableHost.serving ⟨404, "application/json", [55]⟩) "/seven.json" demoTable).1 =
        Settled.resolved 7 ∧
      read_json (tableHost.serving ⟨404, "application/json", [55]⟩) "/seven.json" demoTable =
        read_json tableHost "/seven.json" demoTable ∧
      read_image (tableHost.serving ⟨404, "application/json", [55]⟩) "/seven.json" demoTable =
        read_image tableHost "/seven.json" demoTable ∧
      (∀ (v : Nat) (u : Table),
        (tableHost.serving ⟨404, "application/json", [55]⟩).json
            ⟨404, "application/json", [55]⟩ demoTable = (Settled.resolved v, u) →
        read_json (tableHost.serving ⟨404, "application/json", [55]⟩) "/seven.json" demoTable =
          (Settled.resolved v, u)) ∧
      (∀ (b : Blob) (u : Table),
        (tableHost.serving ⟨404, "application/json", [55]⟩).blob
            ⟨404, "application/json", [55]⟩ demoTable = (Settled.resolved b, u) →
        read_image (tableHost.serving ⟨404, "application/json", [55]⟩) "/seven.json" demoTable =
          (Settled.resolved b, u)) :=
  ⟨by decide,
    status_not_inspected (tableHost.serving ⟨404, "application/json", [55]⟩) tableHost
      "/seven.json" ⟨404, "application/json", [55]⟩ sevenResponse demoTable demoTable demoTable
      rfl (by decide) rfl rfl rfl rfl
      (fun a b hb _ => by
        funext t
        show (if t.online then (digitJson a, t) else (Settled.rejected TableError.aborted, t)) =
          (if t.online then (digitJson b, t) else (Settled.rejected TableError.aborted, t))
        simp [digitJson, hb])
      (fun a b hb ht => by
        funext t
        show (if t.online then (Settled.resolved (⟨a.body, a.contentType⟩ : Blob), t)
            else (Settled.rejected TableError.aborted, t)) =
          (if t.online then (Settled.resolved (⟨b.body, b.contentType⟩ : Blob), t)
            else (Settled.rejected TableError.aborted, t))
        rw [hb, ht])⟩

theorem no_caching_witness :
    (read_json tableHost "/seven.json" demoTable).1 = Settled.resolved 7 ∧
      read_json tableHost "/seven.json"
          ((fun t : Table => t.serve "/seven.json" ⟨200, "application/json", [53]⟩)
            (read_json tableHost "/seven.json" demoTable).2) =
        tableHost.json ⟨200, "application/json", [53]⟩
          (demoTable.serve "/seven.json" ⟨200, "application/json", [53]⟩) ∧
      read_image tableHost "/seven.json"
          ((fun t : Table => t.serve "/seven.json" ⟨200, "application/json", [53]⟩)
            (read_image tableHost "/seven.json" demoTable).2) =
        tableHost.blob ⟨200, "application/json", [53]⟩
          (demoTable.serve "/seven.json" ⟨200, "application/json", [53]⟩) :=
  ⟨by decide,
    no_caching tableHost "/seven.json" demoTable
      (fun t : Table => t.serve "/seven.json" ⟨200, "application/json", [53]⟩)
      ⟨200, "application/json", [53]⟩ ⟨200, "application/json", [53]⟩
      (demoTable.serve "/seven.json" ⟨200, "application/json", [53]⟩)
      (demoTable.serve "/seven.json" ⟨200, "application/json", [53]⟩)
      (by decide) (by decide)⟩

theorem read_image_settles_as_blob_witness :
    read_image tableHost "/a.png" demoTable = tableHost.blob pngResponse demoTable ∧
      ∀ decode : Response → Async Table TableError Nat,
        read_image { tableHost with json := decode } "/a.png" demoTable =
          read_image tableHost "/a.png" demoTable :=
  read_image_settles_as_blob tableHost "/a.png" pngResponse demoTable demoTable (by decide)

theorem concurrent_calls_independent_witness :
    (Flight.run tableHost
        ⟨Call.notStarted Loader.json "/seven.json", Call.notStarted Loader.image "/a.png",
          demoTable⟩
        [true, false, false, true, false, true]).first =
        Call.settled (Loader.json.run tableHost "/seven.json" demoTable).1 ∧
      (Flight.run tableHost
        ⟨Call.notStarted Loader.json "/seven.json", Call.notStarted Loader.image "/a.png",
          demoTable⟩
        [true, false, false, true, false, true]).second =
        Call.settled (Loader.image.run tableHost "/a.png" demoTable).1 :=
  concurrent_calls_independent tableHost (fun t => t = demoTable) Loader.json Loader.image
    "/seven.json" "/a.png" demoTable [true, false, false, true, false, true]
    (tableHost_steady demoTable) rfl (by decide) (by decide)

end WasmUtils
